import Mathlib

/-!
Verification development for the Access-token verification subsystem of the
moltworker repository: key-set fetching and caching (jwks), JWT verification
(jwt), request middleware, the admin asset routes, and the sandbox process
finder.  Sources present under the repository are translated directly; the
jwks/jwt/middleware module bodies are absent from the repository snapshot
(only their test suite and callers are present), so those are modelled from
the specification, cross-checked against the test suite.
-/

namespace Moltworker

/-! ## String helpers (substring and prefix tests, executable) -/

/-- Decide whether the second list is a prefix of the first. -/
def listStarts : List Char → List Char → Bool
  | _, [] => true
  | [], _ :: _ => false
  | a :: as, b :: bs => a == b && listStarts as bs

/-- Decide whether `pat` occurs as a contiguous sublist of the second list. -/
def listHasSub (pat : List Char) : List Char → Bool
  | [] => pat.isEmpty
  | c :: t => listStarts (c :: t) pat || listHasSub pat t

/-- String prefix test: does `s` start with `pre`? -/
def strStarts (s pre : String) : Bool :=
  listStarts s.toList pre.toList

/-- String containment test: does `s` contain `pat` as a substring? -/
def strHasSub (s pat : String) : Bool :=
  listHasSub pat.toList s.toList

/-- Split a character list on the dot character. -/
def splitDotsAux : List Char → List Char → List String
  | acc, [] => [String.mk acc.reverse]
  | acc, c :: cs =>
    if c = '.' then String.mk acc.reverse :: splitDotsAux [] cs
    else splitDotsAux (c :: acc) cs

/-- Split a string on the dot character (the JWT segment separator). -/
def splitDots (s : String) : List String :=
  splitDotsAux [] s.toList

/-- Replace the first occurrence of `pat` (as the JavaScript
`String.prototype.replace` with a string pattern does). -/
def replaceFirstList (pat rep : List Char) : List Char → List Char
  | [] => if pat.isEmpty then rep else []
  | c :: cs =>
    if listStarts (c :: cs) pat then rep ++ (c :: cs).drop pat.length
    else c :: replaceFirstList pat rep cs

/-- Replace the first occurrence of `pat` in `s` with `rep`. -/
def replaceFirst (s pat rep : String) : String :=
  String.mk (replaceFirstList pat.toList rep.toList s.toList)

/-! ## Association-list operations used by the key-set cache and key-set -/

/-- Look up a key in an association list (first match wins). -/
def alookup {β : Type} (k : String) : List (String × β) → Option β
  | [] => none
  | (k', v) :: t => if k' == k then some v else alookup k t

/-- Store a binding, replacing any existing binding for the key wholesale. -/
def aput {β : Type} (k : String) (v : β) (l : List (String × β)) :
    List (String × β) :=
  (k, v) :: l.filter (fun p => p.1 != k)

/-! ## Key-set data model

Modelled from the spec: a JWK entry of the provider key-set JSON body
`{ keys: [ {kid, kty, n, e, ...} ] }`; `kid` may be absent. -/

structure JWK where
  kid : Option String
  kty : String
  n : String
  e : String
deriving DecidableEq, Inhabited

/-- Modelled from the spec: an imported RSA verification key (the result of
importing a surviving JWK entry for the RS256 family). -/
structure RSAKey where
  n : String
  e : String
deriving DecidableEq, Inhabited

/-- A SigningKeySet: mapping from key identifier to imported key. -/
abbrev SigningKeySet : Type := List (String × RSAKey)

/-- Modelled from the spec: parse a provider key-set body.  For each entry:
skip if `kid` is absent; skip if `kty` is not RSA; import each surviving
entry keyed by `kid`. -/
def parseKeys (ks : List JWK) : SigningKeySet :=
  ks.filterMap fun k =>
    match k.kid with
    | none => none
    | some kid => if k.kty = "RSA" then some (kid, RSAKey.mk k.n k.e) else none

/-! ## Key-set fetcher and cache

The jwks module source is absent from the repository snapshot (only its test
suite is present); everything below is modelled from the spec. -/

/-- Modelled from the spec: the decoded outcome of an HTTP GET: an ok flag
(2xx), the status, and the `keys` array of the decoded JSON body. -/
structure HttpResp where
  ok : Bool
  status : Nat
  keys : List JWK

/-- Modelled from the spec: the fetch error, carrying the URL and the HTTP
status of the non-2xx response. -/
inductive JWKSError where
  | fetchFailed (url : String) (status : Nat)
deriving DecidableEq

/-- Modelled from the spec: the fixed cache TTL of 3,600,000 ms. -/
def TTL : Nat := 3600000

/-- Modelled from the spec: a cache entry for one provider domain. -/
structure CacheEntry where
  keys : SigningKeySet
  fetchedAtEpochMs : Nat

/-- Modelled from the spec: the process-wide cache state, extended with an
explicit log of the URLs fetched so far so that network activity is
observable. -/
structure JWKSState where
  cache : List (String × CacheEntry)
  fetchLog : List String

/-- Modelled from the spec: the well-known key-set endpoint for a domain. -/
def jwksUrl (domain : String) : String :=
  "https://" ++ domain ++ "/cdn-cgi/access/certs"

/-- Modelled from the spec: fetch the key set for a domain and, on success,
replace the cache entry wholesale; on a non-2xx response fail with the status
and leave the cache untouched.  The fetched URL is appended to the log. -/
def fetchAndCache (net : String → HttpResp) (now : Nat) (domain : String)
    (st : JWKSState) : Except JWKSError SigningKeySet × JWKSState :=
  let url := jwksUrl domain
  let resp := net url
  let logged : JWKSState := { st with fetchLog := st.fetchLog ++ [url] }
  if resp.ok then
    let ks := parseKeys resp.keys
    (Except.ok ks,
     { logged with cache := aput domain ⟨ks, now⟩ logged.cache })
  else
    (Except.error (JWKSError.fetchFailed url resp.status), logged)

/-- Modelled from the spec: the read-through path of the cache.  A cached entry is
valid for reads iff `now - fetchedAtEpochMs < TTL`; a valid entry is returned
without any network activity, otherwise the key set is refetched. -/
def getJWKS (net : String → HttpResp) (now : Nat) (domain : String)
    (st : JWKSState) : Except JWKSError SigningKeySet × JWKSState :=
  match alookup domain st.cache with
  | some entry =>
    if now - entry.fetchedAtEpochMs < TTL then (Except.ok entry.keys, st)
    else fetchAndCache net now domain st
  | none => fetchAndCache net now domain st

/-- Modelled from the spec: the explicit cache-clear operation (test/ops
hook to force refetch). -/
def clearJWKSCache (st : JWKSState) : JWKSState :=
  { st with cache := [] }

/-- The validity invariant of the spec for reads: the domain has an entry and
`now - fetchedAtEpochMs < TTL`. -/
def entryValidForReads (now : Nat) (domain : String) (st : JWKSState) : Bool :=
  match alookup domain st.cache with
  | some entry => now - entry.fetchedAtEpochMs < TTL
  | none => false

/-! ## Token verifier

The jwt module source is absent from the repository snapshot; the verifier
is modelled from the spec.  Base64url JSON decoding and the RS256 signature
check are abstracted as function parameters, while the structural pipeline
(segment split, decode, key lookup by `kid`, signature check, `exp` check,
`aud` check, in that order) is explicit. -/

/-- Modelled from the spec: a decoded token header `{alg, kid}`. -/
structure JWTHeader where
  alg : String
  kid : String
deriving DecidableEq, Inhabited

/-- Modelled from the spec: a decoded token payload (the claims the verifier
consults). -/
structure JWTPayload where
  exp : Option Int
  aud : List String
  sub : String
deriving DecidableEq, Inhabited

/-- Modelled from the spec: the typed failures of verification. -/
inductive VerifyError where
  | malformedToken
  | unknownKey
  | invalidSignature
  | expiredToken
  | audienceMismatch
deriving DecidableEq

/-- Modelled from the spec: `verifyAccessJWT`.  Split the token on dots into
exactly three segments, decode header and payload, look up the `kid` of the header
in the signing key set, verify the RS256 signature over
`base64url(header) ++ "." ++ base64url(payload)`, then check that `exp` is
present and strictly greater than now, then the expected audience.
`decodeHeader`/`decodePayload` stand for base64url+JSON decoding and
`checkSig` for the RS256 signature verification primitive. -/
def verifyAccessJWT (decodeHeader : String → Option JWTHeader)
    (decodePayload : String → Option JWTPayload)
    (checkSig : RSAKey → String → String → Bool)
    (keys : SigningKeySet) (expectedAud : Option String) (now : Int)
    (token : String) : Except VerifyError JWTPayload :=
  match splitDots token with
  | [h64, p64, s64] =>
    match decodeHeader h64, decodePayload p64 with
    | some hdr, some pl =>
      match alookup hdr.kid keys with
      | none => Except.error VerifyError.unknownKey
      | some key =>
        if checkSig key (h64 ++ "." ++ p64) s64 then
          match pl.exp with
          | none => Except.error VerifyError.expiredToken
          | some e =>
            if now < e then
              match expectedAud with
              | none => Except.ok pl
              | some a =>
                if pl.aud.contains a then Except.ok pl
                else Except.error VerifyError.audienceMismatch
            else Except.error VerifyError.expiredToken
        else Except.error VerifyError.invalidSignature
    | _, _ => Except.error VerifyError.malformedToken
  | _ => Except.error VerifyError.malformedToken

/-! ## Request middleware

The middleware module source is absent from the repository snapshot (only
its caller in the admin routes is present); modelled from the spec. -/

/-- Modelled from the spec: the per-route response mode. -/
inductive ResponseMode where
  | html
  | api
deriving DecidableEq

/-- Modelled from the spec: per-route middleware configuration. -/
structure AccessMiddlewareOptions where
  responseMode : ResponseMode
  redirectOnMissingToken : Bool
deriving DecidableEq

/-- Modelled from the spec: the terminal decision of the middleware for one
request. -/
inductive Disposition where
  | allow (payload : Option JWTPayload)
  | redirect (location : String)
  | unauthorized
deriving DecidableEq

/-- An inbound request as the middleware sees it: an optional header-carried
token and an optional cookie-carried token. -/
structure MWRequest where
  headerToken : Option String
  cookieToken : Option String
deriving DecidableEq

/-- Modelled from the spec: token extraction, configured header first, cookie
fallback. -/
def extractJWT (req : MWRequest) : Option String :=
  match req.headerToken with
  | some t => some t
  | none => req.cookieToken

/-- Modelled from the spec: the middleware decision.  No token: dev-mode
bypass allows the request unauthenticated; else redirect to the login entry
point when configured for html with redirect-on-missing; else unauthorized.
Token present: verification failure gets the same missing-token disposition;
success allows the request with the decoded payload attached. -/
def accessMiddleware (opts : AccessMiddlewareOptions) (devMode : Bool)
    (verify : String → Except VerifyError JWTPayload) (login : String)
    (req : MWRequest) : Disposition :=
  match extractJWT req with
  | none =>
    if devMode then Disposition.allow none
    else if opts.redirectOnMissingToken && opts.responseMode == ResponseMode.html then
      Disposition.redirect login
    else Disposition.unauthorized
  | some tok =>
    match verify tok with
    | Except.ok pl => Disposition.allow (some pl)
    | Except.error _ =>
      if opts.redirectOnMissingToken && opts.responseMode == ResponseMode.html then
        Disposition.redirect login
      else Disposition.unauthorized

/-! ## Admin routes (src/gateway admin router, translated from the source)

The admin Hono app registers, in order: a GET handler for the assets route
that serves from the ASSETS binding with the path rewritten, then the Access
middleware on every route, then a GET catch-all serving the SPA index.  A
matching terminal handler responds without invoking later registrations. -/

/-- The outcome of dispatching a request through the admin app. -/
inductive AdminResponse where
  | fromAssets (path : String)
  | blocked (d : Disposition)
  | notFound
deriving DecidableEq

/-- Dispatch a request through the registrations of the admin app in order.  The
returned flag records whether the Access middleware was invoked.  `mw` is the
decision of the middleware for this request when it runs. -/
def adminDispatch (mw : Disposition) (method path : String) :
    AdminResponse × Bool :=
  if method == "GET" && strStarts path "/_admin/assets/" then
    (AdminResponse.fromAssets (replaceFirst path "/_admin/assets/" "/assets/"), false)
  else
    match mw with
    | Disposition.allow _ =>
      if method == "GET" then (AdminResponse.fromAssets "/index.html", true)
      else (AdminResponse.notFound, true)
    | d => (AdminResponse.blocked d, true)

/-! ## Sandbox process finder (src/gateway/process.ts, translated from the
source) -/

/-- A sandbox process as `listProcesses` reports it. -/
structure SandboxProcess where
  id : String
  command : String
  status : String
deriving DecidableEq

/-- The version tag baked into the start command. -/
def PROCESS_VERSION : String := "v3-hardcoded-token"

/-- Is this command a gateway process? -/
def isGatewayCommand (cmd : String) : Bool :=
  strHasSub cmd "start-openclaw.sh" || strHasSub cmd "openclaw gateway" ||
    strHasSub cmd "clawdbot gateway"

/-- Is this command a CLI invocation (to be excluded)? -/
def isCliCommand (cmd : String) : Bool :=
  strHasSub cmd "openclaw devices" || strHasSub cmd "openclaw --version"

/-- Does the command carry the current version tag? -/
def hasVersionTag (cmd : String) : Bool :=
  strHasSub cmd ("echo " ++ PROCESS_VERSION)

/-- The loop body of `findMoltbotProcess`: first gateway process whose status
is starting or running and whose version tag presence matches the
`matchVersion` request. -/
def findMoltbotLoop (matchVersion : Bool) :
    List SandboxProcess → Option SandboxProcess
  | [] => none
  | p :: ps =>
    if isGatewayCommand p.command && !isCliCommand p.command &&
        (p.status == "starting" || p.status == "running") then
      if matchVersion then
        if hasVersionTag p.command then some p
        else findMoltbotLoop matchVersion ps
      else
        if !hasVersionTag p.command then some p
        else findMoltbotLoop matchVersion ps
    else findMoltbotLoop matchVersion ps

/-- `findMoltbotProcess`: the outcome of `sandbox.listProcesses()` is passed
in as an `Except` (error = the listing threw); the try/catch in the source
swallows the error, logs, and returns null. -/
def findMoltbotProcess (listResult : Except String (List SandboxProcess))
    (matchVersion : Bool := true) : Option SandboxProcess :=
  match listResult with
  | Except.error _ => none
  | Except.ok ps => findMoltbotLoop matchVersion ps

/-! ## Helper lemmas -/

/-- A successful association-list lookup returns a binding of the list. -/
theorem alookup_mem {β : Type} {k : String} {l : List (String × β)} {v : β}
    (h : alookup k l = some v) : (k, v) ∈ l := by
  induction l with
  | nil => simp [alookup] at h
  | cons p t ih =>
    obtain ⟨k1, v1⟩ := p
    by_cases hk : k1 = k
    · subst hk
      simp [alookup] at h
      subst h
      exact List.mem_cons_self _ _
    · simp only [alookup, beq_iff_eq, if_neg hk] at h
      exact List.mem_cons_of_mem _ (ih h)

/-- Looking up the key just stored finds the stored value. -/
theorem alookup_aput_self {β : Type} (k : String) (v : β)
    (l : List (String × β)) : alookup k (aput k v l) = some v := by
  simp [aput, alookup]

/-- A key identifier is resolvable in a parsed key set exactly when the raw
key list has an RSA entry carrying that identifier. -/
theorem alookup_parseKeys_isSome (kid : String) (l : List JWK) :
    (alookup kid (parseKeys l)).isSome = true ↔
      ∃ k ∈ l, k.kid = some kid ∧ k.kty = "RSA" := by
  induction l with
  | nil => simp [parseKeys, alookup]
  | cons p t ih =>
    simp only [parseKeys, List.filterMap_cons] at ih ⊢
    cases hk : p.kid with
    | none =>
      simp only [hk]
      rw [ih]
      constructor
      · rintro ⟨k, hm, hrest⟩
        exact ⟨k, List.mem_cons_of_mem _ hm, hrest⟩
      · rintro ⟨k, hm, hkid, hty⟩
        rcases List.mem_cons.mp hm with h | h
        · subst h; rw [hk] at hkid; exact absurd hkid (by simp)
        · exact ⟨k, h, hkid, hty⟩
    | some kid1 =>
      by_cases hty : p.kty = "RSA"
      · simp only [hk, if_pos hty]
        by_cases hkid : kid1 = kid
        · subst hkid
          simp only [alookup, beq_self_eq_true, if_pos, Option.isSome_some,
            true_iff]
          exact ⟨p, List.mem_cons_self _ _, hk, hty⟩
        · simp only [alookup, beq_iff_eq, if_neg hkid]
          rw [ih]
          constructor
          · rintro ⟨k, hm, hrest⟩
            exact ⟨k, List.mem_cons_of_mem _ hm, hrest⟩
          · rintro ⟨k, hm, hkid2, hty2⟩
            rcases List.mem_cons.mp hm with h | h
            · subst h
              rw [hk] at hkid2
              exact absurd (Option.some.inj hkid2) hkid
            · exact ⟨k, h, hkid2, hty2⟩
      · simp only [hk, if_neg hty]
        rw [ih]
        constructor
        · rintro ⟨k, hm, hrest⟩
          exact ⟨k, List.mem_cons_of_mem _ hm, hrest⟩
        · rintro ⟨k, hm, hkid2, hty2⟩
          rcases List.mem_cons.mp hm with h | h
          · subst h; exact absurd hty2 hty
          · exact ⟨k, h, hkid2, hty2⟩

/-! ## Concrete instances used by the witnesses -/

/-- A decoder that yields a fixed header with `kid = "key1"`. -/
def dh0 : String → Option JWTHeader := fun _ => some ⟨"RS256", "key1"⟩

/-- A decoder that yields a fixed unexpired payload. -/
def dp0 : String → Option JWTPayload := fun _ => some ⟨some 100, [], "user"⟩

/-- A decoder that yields a payload with `exp = 50`. -/
def dpLate : String → Option JWTPayload := fun _ => some ⟨some 50, [], "user"⟩

/-- A signature check that rejects everything. -/
def csFalse : RSAKey → String → String → Bool := fun _ _ _ => false

/-- A signature check that accepts everything. -/
def csTrue : RSAKey → String → String → Bool := fun _ _ _ => true

/-- A one-key signing key set. -/
def keys0 : SigningKeySet := [("key1", ⟨"modulus", "exponent"⟩)]

/-- A network that answers every URL with a 2xx key-set body holding one RSA
entry, one EC entry and one entry without `kid`. -/
def net0 : String → HttpResp := fun _ =>
  { ok := true, status := 200,
    keys := [⟨some "key1", "RSA", "modulus", "exponent"⟩,
             ⟨some "key2", "EC", "", ""⟩,
             ⟨none, "RSA", "m", "e"⟩] }

/-- A network that answers every URL with a 500. -/
def netBad : String → HttpResp := fun _ =>
  { ok := false, status := 500, keys := [] }

/-- A verifier that rejects every token. -/
def v0 : String → Except VerifyError JWTPayload :=
  fun _ => Except.error VerifyError.malformedToken

/-! ## Claim theorems -/

/-- C1: for every token whose signature does not match any key in the
current key set (the token splits into three segments, its header and
payload decode, and the signature check fails against every key of the set),
`verifyAccessJWT` fails with `UnknownKeyError` or `InvalidSignatureError`
and never returns a success result. -/
theorem verifyAccessJWT_unmatched_signature_fails
    (dh : String → Option JWTHeader) (dp : String → Option JWTPayload)
    (cs : RSAKey → String → String → Bool) (keys : SigningKeySet)
    (ea : Option String) (now : Int) (token h64 p64 s64 : String)
    (hdr : JWTHeader) (pl : JWTPayload)
    (hsplit : splitDots token = [h64, p64, s64])
    (hh : dh h64 = some hdr) (hp : dp p64 = some pl)
    (hsig : ∀ kid key, (kid, key) ∈ keys →
      cs key (h64 ++ "." ++ p64) s64 = false) :
    (verifyAccessJWT dh dp cs keys ea now token
        = Except.error VerifyError.unknownKey ∨
      verifyAccessJWT dh dp cs keys ea now token
        = Except.error VerifyError.invalidSignature) ∧
    ∀ out, verifyAccessJWT dh dp cs keys ea now token ≠ Except.ok out := by
  have hmain : verifyAccessJWT dh dp cs keys ea now token
      = Except.error VerifyError.unknownKey ∨
      verifyAccessJWT dh dp cs keys ea now token
      = Except.error VerifyError.invalidSignature := by
    simp only [verifyAccessJWT, hsplit, hh, hp]
    cases hlk : alookup hdr.kid keys with
    | none => exact Or.inl rfl
    | some key =>
      have hc := hsig hdr.kid key (alookup_mem hlk)
      simp [hc]
  refine ⟨hmain, ?_⟩
  intro out hok
  rcases hmain with h | h <;> rw [hok] at h <;> simp at h

/-- C1 witness. -/
theorem verifyAccessJWT_unmatched_signature_fails_witness :
    (verifyAccessJWT dh0 dp0 csFalse keys0 none 0 "a.b.c"
        = Except.error VerifyError.unknownKey ∨
      verifyAccessJWT dh0 dp0 csFalse keys0 none 0 "a.b.c"
        = Except.error VerifyError.invalidSignature) ∧
    ∀ out, verifyAccessJWT dh0 dp0 csFalse keys0 none 0 "a.b.c"
      ≠ Except.ok out :=
  verifyAccessJWT_unmatched_signature_fails dh0 dp0 csFalse keys0 none 0
    "a.b.c" "a" "b" "c" ⟨"RS256", "key1"⟩ ⟨some 100, [], "user"⟩
    (by decide) rfl rfl (fun _ _ _ => rfl)

/-- C2: under the structural, key-lookup and signature hypotheses, the
verifier fails with `ExpiredTokenError` exactly when the `exp` claim is
absent or not strictly greater than the current time (strict inequality, no
leeway). -/
theorem verifyAccessJWT_exp_strict
    (dh : String → Option JWTHeader) (dp : String → Option JWTPayload)
    (cs : RSAKey → String → String → Bool) (keys : SigningKeySet)
    (ea : Option String) (now : Int) (token h64 p64 s64 : String)
    (hdr : JWTHeader) (pl : JWTPayload) (key : RSAKey)
    (hsplit : splitDots token = [h64, p64, s64])
    (hh : dh h64 = some hdr) (hp : dp p64 = some pl)
    (hk : alookup hdr.kid keys = some key)
    (hs : cs key (h64 ++ "." ++ p64) s64 = true) :
    verifyAccessJWT dh dp cs keys ea now token
        = Except.error VerifyError.expiredToken ↔
      (pl.exp = none ∨ ∃ e, pl.exp = some e ∧ e ≤ now) := by
  simp only [verifyAccessJWT, hsplit, hh, hp, hk, hs, if_true]
  cases hexp : pl.exp with
  | none => simp
  | some e =>
    by_cases hlt : now < e
    · simp only [if_pos hlt]
      cases ea with
      | none =>
        simp only [Option.some.injEq, reduceCtorEq, false_or]
        constructor
        · intro h; simp at h
        · rintro ⟨e2, he2, hle⟩; omega
      | some a =>
        by_cases hmem : pl.aud.contains a <;>
          simp only [hmem, if_pos, if_neg, Bool.false_eq_true,
            Option.some.injEq, reduceCtorEq, false_or] <;>
          constructor <;> intro h
        · simp at h
        · obtain ⟨e2, he2, hle⟩ := h; omega
        · simp at h
        · obtain ⟨e2, he2, hle⟩ := h; omega
    · simp only [if_neg hlt, Option.some.injEq, reduceCtorEq, false_or,
        true_iff]
      exact ⟨e, rfl, by omega⟩

/-- C2 witness. -/
theorem verifyAccessJWT_exp_strict_witness :
    verifyAccessJWT dh0 dpLate csTrue keys0 none 100 "a.b.c"
        = Except.error VerifyError.expiredToken ↔
      (JWTPayload.exp ⟨some 50, [], "user"⟩ = none ∨
        ∃ e, JWTPayload.exp ⟨some 50, [], "user"⟩ = some e ∧ e ≤ 100) :=
  verifyAccessJWT_exp_strict dh0 dpLate csTrue keys0 none 100 "a.b.c"
    "a" "b" "c" ⟨"RS256", "key1"⟩ ⟨some 50, [], "user"⟩
    ⟨"modulus", "exponent"⟩ (by decide) rfl rfl rfl rfl

/-- C3: on a cache miss with a 2xx response, the fetch succeeds (even when
the surviving set is empty) and the returned key set resolves exactly the
identifiers of the RSA entries of the body that carry a `kid`; entries
without `kid` and non-RSA entries are excluded. -/
theorem getJWKS_filters_non_rsa_and_missing_kid
    (net : String → HttpResp) (now : Nat) (domain : String) (st : JWKSState)
    (hmiss : alookup domain st.cache = none)
    (hok : (net (jwksUrl domain)).ok = true) :
    ∃ ks, (getJWKS net now domain st).1 = Except.ok ks ∧
      ∀ kid, (alookup kid ks).isSome = true ↔
        ∃ k ∈ (net (jwksUrl domain)).keys,
          k.kid = some kid ∧ k.kty = "RSA" := by
  refine ⟨parseKeys (net (jwksUrl domain)).keys, ?_, ?_⟩
  · simp [getJWKS, hmiss, fetchAndCache, hok]
  · intro kid
    exact alookup_parseKeys_isSome kid _

/-- C3 witness. -/
theorem getJWKS_filters_non_rsa_and_missing_kid_witness :
    ∃ ks, (getJWKS net0 0 "myteam.cloudflareaccess.com" ⟨[], []⟩).1
        = Except.ok ks ∧
      ∀ kid, (alookup kid ks).isSome = true ↔
        ∃ k ∈ (net0 (jwksUrl "myteam.cloudflareaccess.com")).keys,
          k.kid = some kid ∧ k.kty = "RSA" :=
  getJWKS_filters_non_rsa_and_missing_kid net0 0
    "myteam.cloudflareaccess.com" ⟨[], []⟩ rfl rfl

/-- C4: starting from a state with no entry for the domain and a reachable
2xx endpoint, the first read fetches once; a second read within the TTL
window fetches nothing more (one fetch total for the two reads); the first
read at or past TTL after the first fetch issues exactly one new fetch. -/
theorem getJWKS_ttl_fetch_counts
    (net : String → HttpResp) (domain : String) (t0 t1 t2 : Nat)
    (st0 : JWKSState)
    (hmiss : alookup domain st0.cache = none)
    (hok : (net (jwksUrl domain)).ok = true)
    (hwin : t1 - t0 < TTL) (hpast : TTL ≤ t2 - t0) :
    (getJWKS net t0 domain st0).2.fetchLog.length
        = st0.fetchLog.length + 1 ∧
    (getJWKS net t1 domain (getJWKS net t0 domain st0).2).2.fetchLog
        = (getJWKS net t0 domain st0).2.fetchLog ∧
    (getJWKS net t2 domain (getJWKS net t0 domain st0).2).2.fetchLog.length
        = (getJWKS net t0 domain st0).2.fetchLog.length + 1 := by
  have hst1 : (getJWKS net t0 domain st0).2 =
      { cache := aput domain
          ⟨parseKeys (net (jwksUrl domain)).keys, t0⟩ st0.cache,
        fetchLog := st0.fetchLog ++ [jwksUrl domain] } := by
    simp [getJWKS, hmiss, fetchAndCache, hok]
  have hnot : ¬ (t2 - t0 < TTL) := not_lt.mpr hpast
  refine ⟨?_, ?_, ?_⟩
  · rw [hst1]; simp
  · rw [hst1]
    simp [getJWKS, alookup_aput_self, hwin]
  · rw [hst1]
    simp [getJWKS, alookup_aput_self, hnot, fetchAndCache, hok]

/-- C4 witness. -/
theorem getJWKS_ttl_fetch_counts_witness :
    (getJWKS net0 0 "d" ⟨[], []⟩).2.fetchLog.length = 1 ∧
    (getJWKS net0 1800000 "d" (getJWKS net0 0 "d" ⟨[], []⟩).2).2.fetchLog
        = (getJWKS net0 0 "d" ⟨[], []⟩).2.fetchLog ∧
    (getJWKS net0 3600000 "d"
        (getJWKS net0 0 "d" ⟨[], []⟩).2).2.fetchLog.length
        = (getJWKS net0 0 "d" ⟨[], []⟩).2.fetchLog.length + 1 :=
  getJWKS_ttl_fetch_counts net0 "d" 0 1800000 3600000 ⟨[], []⟩ rfl rfl
    (by decide) (by decide)

/-- C5: when the entry for the domain is absent or expired and the endpoint
answers non-2xx, the read fails with the fetch error carrying the URL and
the HTTP status, and the cache is left untouched. -/
theorem getJWKS_fetch_failure_leaves_cache
    (net : String → HttpResp) (now : Nat) (domain : String) (st : JWKSState)
    (hstale : entryValidForReads now domain st = false)
    (hbad : (net (jwksUrl domain)).ok = false) :
    (getJWKS net now domain st).1
        = Except.error (JWKSError.fetchFailed (jwksUrl domain)
            (net (jwksUrl domain)).status) ∧
    (getJWKS net now domain st).2.cache = st.cache := by
  cases hlk : alookup domain st.cache with
  | none => simp [getJWKS, hlk, fetchAndCache, hbad]
  | some entry =>
    have hnv : ¬ (now - entry.fetchedAtEpochMs < TTL) := by
      simpa [entryValidForReads, hlk] using hstale
    simp [getJWKS, hlk, hnv, fetchAndCache, hbad]

/-- C5 witness. -/
theorem getJWKS_fetch_failure_leaves_cache_witness :
    (getJWKS netBad 0 "d" ⟨[], []⟩).1
        = Except.error (JWKSError.fetchFailed (jwksUrl "d")
            (netBad (jwksUrl "d")).status) ∧
    (getJWKS netBad 0 "d" ⟨[], []⟩).2.cache = JWKSState.cache ⟨[], []⟩ :=
  getJWKS_fetch_failure_leaves_cache netBad 0 "d" ⟨[], []⟩ rfl rfl

/-- C6: whatever a read does, the only network request it can issue is an
HTTP GET to exactly the URL built as
`https://{domain}/cdn-cgi/access/certs`: the fetch log either stays as it
was (cache hit) or grows by exactly that URL. -/
theorem getJWKS_fetch_url (net : String → HttpResp) (now : Nat)
    (domain : String) (st : JWKSState) :
    (getJWKS net now domain st).2.fetchLog = st.fetchLog ∨
    (getJWKS net now domain st).2.fetchLog
        = st.fetchLog ++ ["https://" ++ domain ++ "/cdn-cgi/access/certs"] := by
  have hurl : "https://" ++ domain ++ "/cdn-cgi/access/certs"
      = jwksUrl domain := rfl
  rw [hurl]
  cases hlk : alookup domain st.cache with
  | none =>
    by_cases h : (net (jwksUrl domain)).ok <;>
      simp [getJWKS, hlk, fetchAndCache, h]
  | some entry =>
    by_cases hv : now - entry.fetchedAtEpochMs < TTL
    · simp [getJWKS, hlk, hv]
    · by_cases h : (net (jwksUrl domain)).ok <;>
        simp [getJWKS, hlk, hv, fetchAndCache, h]

/-- C7: after the cache-clear operation, the next read for any domain
(cached before or not) issues a fresh network fetch instead of serving from
the previous cache. -/
theorem clearJWKSCache_forces_refetch (net : String → HttpResp) (now : Nat)
    (domain : String) (st : JWKSState) :
    (getJWKS net now domain (clearJWKSCache st)).2.fetchLog
        = st.fetchLog ++ [jwksUrl domain] := by
  by_cases h : (net (jwksUrl domain)).ok <;>
    simp [getJWKS, clearJWKSCache, alookup, fetchAndCache, h]

/-- C8: with no token on the request and dev-mode inactive, the middleware
responds unauthorized (no redirect) in api mode, and redirects to the login
entry point in html mode when redirect-on-missing is set. -/
theorem accessMiddleware_missing_token_dispositions
    (opts : AccessMiddlewareOptions)
    (verify : String → Except VerifyError JWTPayload) (login : String)
    (req : MWRequest) (hno : extractJWT req = none) :
    (opts.responseMode = ResponseMode.api →
      accessMiddleware opts false verify login req
        = Disposition.unauthorized) ∧
    (opts.responseMode = ResponseMode.html →
      opts.redirectOnMissingToken = true →
      accessMiddleware opts false verify login req
        = Disposition.redirect login) := by
  constructor
  · intro hapi
    simp [accessMiddleware, hno, hapi]
  · intro hhtml hred
    simp [accessMiddleware, hno, hhtml, hred]

/-- C8 witness. -/
theorem accessMiddleware_missing_token_dispositions_witness :
    accessMiddleware ⟨ResponseMode.api, false⟩ false v0 "https://login"
        ⟨none, none⟩ = Disposition.unauthorized ∧
    accessMiddleware ⟨ResponseMode.html, true⟩ false v0 "https://login"
        ⟨none, none⟩ = Disposition.redirect "https://login" :=
  ⟨(accessMiddleware_missing_token_dispositions ⟨ResponseMode.api, false⟩
      v0 "https://login" ⟨none, none⟩ rfl).1 rfl,
   (accessMiddleware_missing_token_dispositions ⟨ResponseMode.html, true⟩
      v0 "https://login" ⟨none, none⟩ rfl).2 rfl rfl⟩

/-- C9: every GET request whose path matches the admin assets route is
served from the ASSETS binding with the rewritten path, and the Access
middleware is not invoked, whatever it would have decided. -/
theorem adminAssets_served_without_middleware (mw : Disposition)
    (method path : String) (hm : method = "GET")
    (hp : strStarts path "/_admin/assets/" = true) :
    adminDispatch mw method path
      = (AdminResponse.fromAssets
          (replaceFirst path "/_admin/assets/" "/assets/"), false) := by
  simp [adminDispatch, hm, hp]

/-- C9 witness. -/
theorem adminAssets_served_without_middleware_witness :
    adminDispatch Disposition.unauthorized "GET" "/_admin/assets/app.js"
      = (AdminResponse.fromAssets "/assets/app.js", false) :=
  adminAssets_served_without_middleware Disposition.unauthorized "GET"
    "/_admin/assets/app.js" rfl (by decide)

/-- C10: `findMoltbotProcess` swallows a failure of the process listing and
returns null instead of propagating it, for either version-matching mode. -/
theorem findMoltbotProcess_swallows_listing_error (e : String)
    (matchVersion : Bool) :
    findMoltbotProcess (Except.error e) matchVersion = none := rfl

end Moltworker
